import Mathlib

/-!
Verification development for the membrane admin-webhook-handler repository.

The repository contains three deployment variants of the same webhook
receiver (AWS Lambda `src/aws-lambda/src/handlers/membraneWebhook.ts`,
Azure Functions `src/src/functions/membraneWebhook.ts`, Google Cloud
Functions `src/unnamed/part_002`), sharing one signature-verification
routine (`verifySignature`) and one event-dispatch `switch`.

This file gives a shallow embedding of those routines:
 * bytes are `Nat` below 256, 32-bit words are `Nat` reduced `% 2^32`;
 * `crypto.createHmac("sha256", secret).update(rawBody).digest("hex")` is
   embedded as a full executable HMAC-SHA256 over the UTF-8 encodings,
   with lowercase hex output;
 * `crypto.timingSafeEqual` is embedded as the XOR-accumulating
   equal-length comparison it implements, paired with a step counter so
   that its constant-time character is expressible;
 * `JSON.parse` / `JSON.stringify` are embedded as an executable JSON
   parser / serializer over an inductive `Json` type (numbers keep their
   source lexeme, so no floating point is involved);
 * the untyped JavaScript property accesses performed by the dispatch
   code run in `Except Unit` — reading a property of `undefined` or
   `null` throws, every other read succeeds (possibly with `undefined`),
   mirroring the TypeScript code which casts the parsed JSON without
   validation.
-/

set_option maxRecDepth 400000

namespace MembraneWebhook

/-! ## UTF-8 encoding (`Buffer.from(s, "utf8")`) -/

/-- UTF-8 encoding of a single character, as bytes (`Nat < 256`). -/
def encodeChar (c : Char) : List Nat :=
  let n := c.toNat
  if n < 128 then [n]
  else if n < 2048 then [192 + n / 64, 128 + n % 64]
  else if n < 65536 then [224 + n / 4096, 128 + (n / 64) % 64, 128 + n % 64]
  else [240 + n / 262144, 128 + (n / 4096) % 64, 128 + (n / 64) % 64, 128 + n % 64]

/-- UTF-8 encoding of a character list. -/
def utf8Chars (cs : List Char) : List Nat :=
  cs.foldr (fun c acc => encodeChar c ++ acc) []

/-- UTF-8 bytes of a string: the embedding of `Buffer.from(s, "utf8")`
and of the byte stream hashed by `crypto`'s `update`. -/
def utf8Bytes (s : String) : List Nat :=
  utf8Chars s.data

/-! ## SHA-256 -/

/-- Truncation to a 32-bit word. -/
def w32 (n : Nat) : Nat := n % 4294967296

/-- 32-bit right rotation. -/
def rotr (k n : Nat) : Nat :=
  w32 (n / 2 ^ k + n % 2 ^ k * 2 ^ (32 - k))

/-- 32-bit bitwise complement. -/
def compl32 (n : Nat) : Nat := 4294967295 - n % 4294967296

/-- The SHA-256 round constants. -/
def shaK : List Nat :=
  [1116352408, 1899447441, 3049323471, 3921009573, 961987163,
   1508970993, 2453635748, 2870763221, 3624381080, 310598401,
   607225278, 1426881987, 1925078388, 2162078206, 2614888103,
   3248222580, 3835390401, 4022224774, 264347078, 604807628,
   770255983, 1249150122, 1555081692, 1996064986, 2554220882,
   2821834349, 2952996808, 3210313671, 3336571891, 3584528711,
   113926993, 338241895, 666307205, 773529912, 1294757372,
   1396182291, 1695183700, 1986661051, 2177026350, 2456956037,
   2730485921, 2820302411, 3259730800, 3345764771, 3516065817,
   3600352804, 4094571909, 275423344, 430227734, 506948616,
   659060556, 883997877, 958139571, 1322822218, 1537002063,
   1747873779, 1955562222, 2024104815, 2227730452, 2361852424,
   2428436474, 2756734187, 3204031479, 3329325298]

/-- The SHA-256 initial hash value. -/
def shaH0 : List Nat :=
  [1779033703, 3144134277, 1013904242, 2773480762, 1359893119,
   2600822924, 528734635, 1541459225]

/-- Big-endian 8-byte encoding of a (bit-)length. -/
def len64be (n : Nat) : List Nat :=
  [n / 2 ^ 56 % 256, n / 2 ^ 48 % 256, n / 2 ^ 40 % 256, n / 2 ^ 32 % 256,
   n / 2 ^ 24 % 256, n / 2 ^ 16 % 256, n / 2 ^ 8 % 256, n % 256]

/-- SHA-256 message padding. -/
def shaPad (msg : List Nat) : List Nat :=
  let padLen := (55 + 64 - msg.length % 64) % 64
  msg ++ [128] ++ List.replicate padLen 0 ++ len64be (msg.length * 8)

/-- Group four bytes (big-endian) into one 32-bit word each. -/
def bytesToWords : List Nat → List Nat
  | a :: b :: c :: d :: rest => (a * 16777216 + b * 65536 + c * 256 + d) :: bytesToWords rest
  | _ => []

/-- One step of the SHA-256 message-schedule extension: given the reversed
list of words so far, produce the next word. -/
def nextScheduleWord (prev : List Nat) : Nat :=
  let g : Nat → Nat := fun k => prev.getD k 0
  let w2 := g 1
  let w7 := g 6
  let w15 := g 14
  let w16 := g 15
  let s0 := Nat.xor (rotr 7 w15) (Nat.xor (rotr 18 w15) (w15 / 8))
  let s1 := Nat.xor (rotr 17 w2) (Nat.xor (rotr 19 w2) (w2 / 1024))
  w32 (w16 + s0 + w7 + s1)

/-- Extend 16 words to 64 (accumulating in reverse). -/
def extendSchedule : Nat → List Nat → List Nat
  | 0, acc => acc.reverse
  | n + 1, acc => extendSchedule n (nextScheduleWord acc :: acc)

/-- The 64-word message schedule of one block. -/
def schedule (blockWords : List Nat) : List Nat :=
  extendSchedule 48 blockWords.reverse

/-- The SHA-256 working state. -/
structure ShaState where
  a : Nat
  b : Nat
  c : Nat
  d : Nat
  e : Nat
  f : Nat
  g : Nat
  h : Nat
deriving Repr

/-- One SHA-256 compression round. -/
def shaRound (st : ShaState) (kw : Nat × Nat) : ShaState :=
  let s1 := Nat.xor (rotr 6 st.e) (Nat.xor (rotr 11 st.e) (rotr 25 st.e))
  let ch := Nat.xor (Nat.land st.e st.f) (Nat.land (compl32 st.e) st.g)
  let t1 := w32 (st.h + s1 + ch + kw.1 + kw.2)
  let s0 := Nat.xor (rotr 2 st.a) (Nat.xor (rotr 13 st.a) (rotr 22 st.a))
  let maj := Nat.xor (Nat.land st.a st.b) (Nat.xor (Nat.land st.a st.c) (Nat.land st.b st.c))
  let t2 := w32 (s0 + maj)
  { a := w32 (t1 + t2), b := st.a, c := st.b, d := st.c,
    e := w32 (st.d + t1), f := st.e, g := st.f, h := st.g }

/-- Compress one 512-bit block into the running hash value. -/
def shaCompress (hv : List Nat) (blockWords : List Nat) : List Nat :=
  let ws := schedule blockWords
  let init : ShaState :=
    { a := hv.getD 0 0, b := hv.getD 1 0, c := hv.getD 2 0, d := hv.getD 3 0,
      e := hv.getD 4 0, f := hv.getD 5 0, g := hv.getD 6 0, h := hv.getD 7 0 }
  let st := (shaK.zip ws).foldl shaRound init
  [w32 (hv.getD 0 0 + st.a), w32 (hv.getD 1 0 + st.b), w32 (hv.getD 2 0 + st.c),
   w32 (hv.getD 3 0 + st.d), w32 (hv.getD 4 0 + st.e), w32 (hv.getD 5 0 + st.f),
   w32 (hv.getD 6 0 + st.g), w32 (hv.getD 7 0 + st.h)]

/-- Split into 64-byte blocks, with fuel for structural recursion. -/
def toBlocksAux : Nat → List Nat → List (List Nat)
  | 0, _ => []
  | _, [] => []
  | fuel + 1, l => l.take 64 :: toBlocksAux fuel (l.drop 64)

/-- Split a padded message into 64-byte blocks (each step consumes at
least one byte, so `l.length` is enough fuel). -/
def toBlocks (l : List Nat) : List (List Nat) :=
  toBlocksAux l.length l

/-- Big-endian bytes of one 32-bit word. -/
def wordBytes (wd : Nat) : List Nat :=
  [wd / 16777216 % 256, wd / 65536 % 256, wd / 256 % 256, wd % 256]

/-- SHA-256 of a byte list, as 32 bytes. -/
def sha256Bytes (msg : List Nat) : List Nat :=
  let blocks := toBlocks (shaPad msg)
  let hv := blocks.foldl (fun acc blk => shaCompress acc (bytesToWords blk)) shaH0
  hv.flatMap wordBytes

/-! ## Lowercase hex encoding (`digest("hex")`) -/

/-- The lowercase hex digit for `n` (callers pass `n < 16`). -/
def hexDigit (n : Nat) : Char :=
  if n = 0 then '0' else if n = 1 then '1' else if n = 2 then '2'
  else if n = 3 then '3' else if n = 4 then '4' else if n = 5 then '5'
  else if n = 6 then '6' else if n = 7 then '7' else if n = 8 then '8'
  else if n = 9 then '9' else if n = 10 then 'a' else if n = 11 then 'b'
  else if n = 12 then 'c' else if n = 13 then 'd' else if n = 14 then 'e'
  else 'f'

/-- Two lowercase hex digits for one byte. -/
def hexByte (b : Nat) : List Char :=
  [hexDigit (b / 16 % 16), hexDigit (b % 16)]

/-- Lowercase hex string of a byte list. -/
def bytesToHex (bs : List Nat) : String :=
  String.mk (bs.flatMap hexByte)

/-! ## HMAC-SHA256 (`crypto.createHmac("sha256", secret).update(body)`) -/

/-- HMAC-SHA256 over byte lists. -/
def hmacSha256 (key msg : List Nat) : List Nat :=
  let k0 := if 64 < key.length then sha256Bytes key else key
  let k := k0 ++ List.replicate (64 - k0.length) 0
  let ipad := k.map (Nat.xor 54)
  let opad := k.map (Nat.xor 92)
  sha256Bytes (opad ++ sha256Bytes (ipad ++ msg))

/-- `crypto.createHmac("sha256", secret).update(rawBody).digest("hex")`:
lowercase-hex HMAC-SHA256 of the UTF-8 bytes. -/
def hmacSha256Hex (secret rawBody : String) : String :=
  bytesToHex (hmacSha256 (utf8Bytes secret) (utf8Bytes rawBody))

/-! ## Timing-safe comparison (`crypto.timingSafeEqual`)

`crypto.timingSafeEqual(a, b)` (called on equal-length buffers only)
XOR-accumulates all byte pairs and tests the accumulator at the end —
it never exits early.  The embedding returns the accumulator together
with the number of byte iterations performed, so the constant-time
character (the loop count) is expressible. -/

/-- XOR-accumulator and iteration count of the constant-time loop. -/
def timingSafeEqualFold : List Nat → List Nat → Nat × Nat
  | x :: xs, y :: ys =>
    let r := timingSafeEqualFold xs ys
    (r.1 ||| (x ^^^ y), r.2 + 1)
  | _, _ => (0, 0)

/-- `crypto.timingSafeEqual` on byte lists. -/
def timingSafeEqual (a b : List Nat) : Bool :=
  (timingSafeEqualFold a b).1 == 0

/-- The number of byte iterations the constant-time loop performs. -/
def timingSafeEqualCost (a b : List Nat) : Nat :=
  (timingSafeEqualFold a b).2

/-! ## `verifySignature`

```ts
function verifySignature(rawBody: string, signatureHex: string | null): boolean {
  if (!WEBHOOK_SECRET) return true;
  if (!signatureHex) return false;
  const expected = crypto.createHmac("sha256", WEBHOOK_SECRET).update(rawBody).digest("hex");
  const a = Buffer.from(signatureHex, "utf8");
  const b = Buffer.from(expected, "utf8");
  return a.length === b.length && crypto.timingSafeEqual(a, b);
}
```

The module-level constant `WEBHOOK_SECRET = process.env.WEBHOOK_SECRET || ""`
is passed as the `secret` parameter; a missing header is `none`, and the
JavaScript falsiness test `!signatureHex` is also true for the empty
string. -/

def verifySignature (secret rawBody : String) (signatureHex : Option String) : Bool :=
  if secret = "" then true
  else
    match signatureHex with
    | none => false
    | some sig =>
      if sig = "" then false
      else
        let expected := hmacSha256Hex secret rawBody
        let a := utf8Bytes sig
        let b := utf8Bytes expected
        a.length == b.length && timingSafeEqual a b

/-! ## JSON values

JSON numbers keep their source lexeme (the handler never does arithmetic
on them), so no floating point enters the embedding. -/

inductive Json where
  | null : Json
  | bool : Bool → Json
  | num : String → Json
  | str : String → Json
  | arr : List Json → Json
  | obj : List (String × Json) → Json
deriving Repr

/-- JavaScript object field lookup.  Later duplicate keys overwrite
earlier ones, hence the last matching binding wins. -/
def jsonLookup (fs : List (String × Json)) (k : String) : Option Json :=
  match fs with
  | [] => none
  | (k', v) :: rest =>
    match jsonLookup rest k with
    | some w => some w
    | none => if k = k' then some v else none

/-! ## `JSON.stringify` -/

/-- JSON string escaping as `JSON.stringify` performs it. -/
def escChar (c : Char) : List Char :=
  if c = '"' then ['\\', '"']
  else if c = '\\' then ['\\', '\\']
  else if c = '\n' then ['\\', 'n']
  else if c = '\r' then ['\\', 'r']
  else if c = '\t' then ['\\', 't']
  else if c = '\x08' then ['\\', 'b']
  else if c = '\x0c' then ['\\', 'f']
  else if c.toNat < 32 then ['\\', 'u', '0', '0', hexDigit (c.toNat / 16), hexDigit (c.toNat % 16)]
  else [c]

/-- A JSON string literal for `s`. -/
def quoteString (s : String) : String :=
  "\"" ++ String.mk (s.data.flatMap escChar) ++ "\""

mutual

/-- `JSON.stringify` (no indentation — the compact form `JSON.stringify(x)`
used by the handlers). -/
def jsonStringify : Json → String
  | .null => "null"
  | .bool true => "true"
  | .bool false => "false"
  | .num lex => lex
  | .str s => quoteString s
  | .arr xs => "[" ++ stringifyElems xs ++ "]"
  | .obj fs => "\x7b" ++ stringifyFields fs ++ "\x7d"

def stringifyElems : List Json → String
  | [] => ""
  | [x] => jsonStringify x
  | x :: y :: rest => jsonStringify x ++ "," ++ stringifyElems (y :: rest)

def stringifyFields : List (String × Json) → String
  | [] => ""
  | [(k, v)] => quoteString k ++ ":" ++ jsonStringify v
  | (k, v) :: y :: rest => quoteString k ++ ":" ++ jsonStringify v ++ "," ++ stringifyFields (y :: rest)

end

/-! ## `JSON.parse`

A recursive-descent parser for the JSON grammar accepted by
`JSON.parse`: optional whitespace, the six value forms, strict number
syntax (no leading zeros, non-empty fraction/exponent), string escapes,
no trailing garbage.  Recursion is made structural with a fuel
parameter; every fuel step consumes at least one input character, so
`2 * length + 2` fuel is always sufficient. -/

/-- JSON whitespace. -/
def isJsonWs (c : Char) : Bool :=
  c = ' ' || c = '\t' || c = '\n' || c = '\r'

/-- Drop leading JSON whitespace. -/
def skipWs : List Char → List Char
  | [] => []
  | c :: cs => if isJsonWs c then skipWs cs else c :: cs

/-- Value of one hex digit. -/
def hexCharVal (c : Char) : Option Nat :=
  if c.isDigit then some (c.toNat - 48)
  else if 'a' ≤ c && c ≤ 'f' then some (c.toNat - 87)
  else if 'A' ≤ c && c ≤ 'F' then some (c.toNat - 55)
  else none

/-- Body of a JSON string literal after the opening quote: the decoded
characters and the remaining input after the closing quote. -/
def parseStringBody : List Char → Option (List Char × List Char)
  | [] => none
  | '"' :: rest => some ([], rest)
  | '\\' :: 'u' :: h1 :: h2 :: h3 :: h4 :: rest =>
    match hexCharVal h1, hexCharVal h2, hexCharVal h3, hexCharVal h4 with
    | some a, some b, some c, some d =>
      match parseStringBody rest with
      | some (cs, r) => some (Char.ofNat (a * 4096 + b * 256 + c * 16 + d) :: cs, r)
      | none => none
    | _, _, _, _ => none
  | '\\' :: e :: rest =>
    let dec : Option Char :=
      if e = '"' then some '"'
      else if e = '\\' then some '\\'
      else if e = '/' then some '/'
      else if e = 'b' then some '\x08'
      else if e = 'f' then some '\x0c'
      else if e = 'n' then some '\n'
      else if e = 'r' then some '\r'
      else if e = 't' then some '\t'
      else none
    match dec with
    | some c =>
      match parseStringBody rest with
      | some (cs, r) => some (c :: cs, r)
      | none => none
    | none => none
  | c :: rest =>
    if c.toNat < 32 then none
    else
      match parseStringBody rest with
      | some (cs, r) => some (c :: cs, r)
      | none => none

/-- Longest digit prefix. -/
def takeDigits : List Char → List Char × List Char
  | [] => ([], [])
  | c :: cs =>
    if c.isDigit then
      let (ds, r) := takeDigits cs
      (c :: ds, r)
    else ([], c :: cs)

/-- Optional exponent part of a JSON number. -/
def numExpPart (lex : List Char) : List Char → Option (String × List Char)
  | [] => some (String.mk lex, [])
  | c :: rest =>
    if c = 'e' || c = 'E' then
      let (sgn, r) :=
        match rest with
        | '+' :: rr => (['+'], rr)
        | '-' :: rr => (['-'], rr)
        | _ => (([] : List Char), rest)
      match takeDigits r with
      | ([], _) => none
      | (ds, r2) => some (String.mk (lex ++ [c] ++ sgn ++ ds), r2)
    else some (String.mk lex, c :: rest)

/-- Optional fraction part of a JSON number, then its exponent part. -/
def numFracPart (lex : List Char) : List Char → Option (String × List Char)
  | '.' :: rest =>
    (match takeDigits rest with
     | ([], _) => none
     | (ds, r) => numExpPart (lex ++ ['.'] ++ ds) r)
  | other => numExpPart lex other

/-- A JSON number lexeme (strict grammar: no leading zeros). -/
def parseNumber (cs : List Char) : Option (String × List Char) :=
  let (sgn, cs1) :=
    match cs with
    | '-' :: r => (['-'], r)
    | _ => (([] : List Char), cs)
  match cs1 with
  | '0' :: r => numFracPart (sgn ++ ['0']) r
  | c :: r =>
    if c.isDigit then
      let (ds, r2) := takeDigits r
      numFracPart (sgn ++ [c] ++ ds) r2
    else none
  | [] => none

mutual

/-- One JSON value, starting at a non-whitespace position. -/
def parseValue : Nat → List Char → Option (Json × List Char)
  | 0, _ => none
  | _ + 1, [] => none
  | fuel + 1, c :: rest =>
    if c = 'n' then
      match rest with
      | 'u' :: 'l' :: 'l' :: r => some (.null, r)
      | _ => none
    else if c = 't' then
      match rest with
      | 'r' :: 'u' :: 'e' :: r => some (.bool true, r)
      | _ => none
    else if c = 'f' then
      match rest with
      | 'a' :: 'l' :: 's' :: 'e' :: r => some (.bool false, r)
      | _ => none
    else if c = '"' then
      match parseStringBody rest with
      | some (cs, r) => some (.str (String.mk cs), r)
      | none => none
    else if c = '[' then
      match skipWs rest with
      | ']' :: r => some (.arr [], r)
      | r1 =>
        match parseElems fuel r1 with
        | some (xs, r) => some (.arr xs, r)
        | none => none
    else if c = '\x7b' then
      match skipWs rest with
      | '\x7d' :: r => some (.obj [], r)
      | r1 =>
        match parseMembers fuel r1 with
        | some (fs, r) => some (.obj fs, r)
        | none => none
    else
      match parseNumber (c :: rest) with
      | some (lex, r) => some (.num lex, r)
      | none => none

/-- Array elements after `[` (first element position, whitespace skipped). -/
def parseElems : Nat → List Char → Option (List Json × List Char)
  | 0, _ => none
  | fuel + 1, cs =>
    match parseValue fuel cs with
    | some (v, r1) =>
      (match skipWs r1 with
       | ',' :: r2 =>
         (match parseElems fuel (skipWs r2) with
          | some (xs, r3) => some (v :: xs, r3)
          | none => none)
       | ']' :: r2 => some ([v], r2)
       | _ => none)
    | none => none

/-- Object members after `{` (first key position, whitespace skipped). -/
def parseMembers : Nat → List Char → Option (List (String × Json) × List Char)
  | 0, _ => none
  | fuel + 1, cs =>
    match cs with
    | '"' :: rest =>
      (match parseStringBody rest with
       | some (kcs, r1) =>
         (match skipWs r1 with
          | ':' :: r2 =>
            (match parseValue fuel (skipWs r2) with
             | some (v, r3) =>
               (match skipWs r3 with
                | ',' :: r4 =>
                  (match parseMembers fuel (skipWs r4) with
                   | some (fs, r5) => some ((String.mk kcs, v) :: fs, r5)
                   | none => none)
                | '\x7d' :: r4 => some ([(String.mk kcs, v)], r4)
                | _ => none)
             | none => none)
          | _ => none)
       | none => none)
    | _ => none

end

/-- `JSON.parse(rawBody)`: `none` is a thrown `SyntaxError`. -/
def membraneParse (s : String) : Option Json :=
  match parseValue (2 * s.length + 2) (skipWs s.data) with
  | some (j, rest) => if skipWs rest = [] then some j else none
  | none => none

/-! ## JavaScript value semantics for the untyped dispatch

`JSON.parse` yields an untyped value that the handlers cast to
`MembraneEvent` without validation, so every property access follows
JavaScript semantics: reading a property of `undefined` or `null`
throws a `TypeError`, reading an absent property of anything else
yields `undefined`.  `JsVal` is a JavaScript value (`none` is
`undefined`); thrown `TypeError`s live in `Except Unit`. -/

/-- A JavaScript value: `undefined` or a JSON value. -/
abbrev JsVal := Option Json

/-- Property read on a JSON value (`null.x` throws). -/
def jsGetJson (j : Json) (k : String) : Except Unit JsVal :=
  match j with
  | .null => .error ()
  | .obj fs => .ok (jsonLookup fs k)
  | _ => .ok none

/-- Property read on a JavaScript value (`undefined.x` throws). -/
def jsGet (v : JsVal) (k : String) : Except Unit JsVal :=
  match v with
  | none => .error ()
  | some j => jsGetJson j k

/-- A `.length` read: arrays and strings have one, `undefined`/`null`
throw, anything else yields `undefined`. -/
def jsLength (v : JsVal) : Except Unit JsVal :=
  match v with
  | none => .error ()
  | some .null => .error ()
  | some (.arr xs) => .ok (some (.num (toString xs.length)))
  | some (.str s) => .ok (some (.num (toString s.length)))
  | some _ => .ok none

mutual

/-- JavaScript string conversion of a JSON value, as template-literal
interpolation performs it (arrays join their elements with `,`,
`null` elements of an array become empty). -/
def jsToStringJ : Json → String
  | .null => "null"
  | .bool true => "true"
  | .bool false => "false"
  | .num lex => lex
  | .str s => s
  | .arr xs => jsArrJoin xs
  | .obj _ => "[object Object]"

def jsArrJoin : List Json → String
  | [] => ""
  | [x] => jsElemStr x
  | x :: y :: rest => jsElemStr x ++ "," ++ jsArrJoin (y :: rest)

def jsElemStr : Json → String
  | .null => ""
  | .bool true => "true"
  | .bool false => "false"
  | .num lex => lex
  | .str s => s
  | .arr xs => jsArrJoin xs
  | .obj _ => "[object Object]"

end

/-- JavaScript string conversion of a value (`undefined` interpolates
as the string `undefined`). -/
def jsToString (v : JsVal) : String :=
  match v with
  | none => "undefined"
  | some j => jsToStringJ j

/-- Whether a JSON number lexeme denotes zero: its mantissa digits are
all `0` (the exponent cannot change that). -/
def numLexIsZero (lex : String) : Bool :=
  ((lex.takeWhile fun c => c ≠ 'e' && c ≠ 'E').data.filter Char.isDigit).all (· = '0')

/-- JavaScript truthiness. -/
def jsTruthy (v : JsVal) : Bool :=
  match v with
  | none => false
  | some .null => false
  | some (.bool b) => b
  | some (.num lex) => ! numLexIsZero lex
  | some (.str s) => s ≠ ""
  | some (.arr _) => true
  | some (.obj _) => true

/-- `x || y` on possibly-missing header strings (the empty string is
falsy). -/
def jsOrString (a b : Option String) : Option String :=
  match a with
  | some s => if s = "" then b else some s
  | none => b

/-- `${x || 'd'}`: the interpolation of `x` when truthy, else `d`. -/
def jsOrDefault (v : JsVal) (d : String) : String :=
  if jsTruthy v then jsToString v else d

/-- `x.join(sep)`: only arrays have `join`; array elements are
stringified, `null` elements becoming empty. -/
def jsJoin (v : JsVal) (sep : String) : Except Unit String :=
  match v with
  | some (.arr xs) => .ok (String.intercalate sep (xs.map jsElemStr))
  | _ => .error ()

/-- `for (const x of v)`: arrays iterate their elements, strings their
characters, everything else throws. -/
def jsIterate (v : JsVal) : Except Unit (List Json) :=
  match v with
  | some (.arr xs) => .ok xs
  | some (.str s) => .ok (s.data.map fun c => .str (String.mk [c]))
  | _ => .error ()

/-- ```admin.orgs.map(org => `- ${org.name} (ID: ${org.id})`)``` over
the elements of `orgs` (throws unless `orgs` is an array, and on `null`
elements whose properties are then read). -/
def jsOrgLines : List Json → Except Unit (List String)
  | [] => .ok []
  | org :: rest => do
    let n ← jsGetJson org "name"
    let i ← jsGetJson org "id"
    let tail ← jsOrgLines rest
    pure (("- " ++ jsToString n ++ " (ID: " ++ jsToString i ++ ")") :: tail)

/-! ## The email side effect

`MembraneService.sendEmailWithAutoConnection` is invoked once per
addressee; the call can itself fail (connection discovery or the SDK
action), which the handler catches per call.  The oracle
`failAt : Nat → Bool` says whether the n-th invocation of the request
throws; an attempt is recorded together with that flag. -/

/-- The `{to, subject, body}` payload handed to the Email Sender. -/
structure EmailData where
  toAddr : String
  subject : String
  body : String
deriving DecidableEq, Repr

/-! ## The dispatch `switch`

The `switch (membraneEvent.type)` block is textually identical in the
AWS (`src/aws-lambda/src/handlers/membraneWebhook.ts:91-204`), Azure
(`src/src/functions/membraneWebhook.ts:82-195`) and Google Cloud
(`src/unnamed/part_002`) handlers, so it is embedded once.  Each case
first evaluates the `logger.info` argument object (whose property reads
can throw — those `TypeError`s escape to the outer `catch`), then
builds the email payload and calls the sender inside the per-send
`try/catch` (property reads while building the payload are inside that
`try`, so their `TypeError`s are swallowed like send failures). -/

/-- Property reads of the `logger.info("User invited to org", ...)`
argument object, in evaluation order. -/
def invitedLogReads (ev : Json) : Except Unit Unit := do
  let _ ← jsGetJson ev "invitationUrl"
  let u ← jsGetJson ev "user"
  let _ ← jsGet u "email"
  let o ← jsGetJson ev "org"
  let _ ← jsGet o "id"
  let o2 ← jsGetJson ev "org"
  let _ ← jsGet o2 "name"
  pure ()

/-- Property reads of the `logger.info("Org access requested", ...)`
argument object. -/
def accessLogReads (ev : Json) : Except Unit Unit := do
  let u ← jsGetJson ev "user"
  let _ ← jsGet u "id"
  let u2 ← jsGetJson ev "user"
  let _ ← jsGet u2 "email"
  let adm ← jsGetJson ev "orgAdmins"
  let _ ← jsLength adm
  pure ()

/-- Property reads of the `logger.info("Org created", ...)` argument
object. -/
def createdLogReads (ev : Json) : Except Unit Unit := do
  let o ← jsGetJson ev "org"
  let _ ← jsGet o "id"
  let o2 ← jsGetJson ev "org"
  let _ ← jsGet o2 "name"
  let _ ← jsGetJson ev "workspaceName"
  let u ← jsGetJson ev "user"
  let _ ← jsGet u "email"
  pure ()

/-- The invitation email payload (`user-invited-to-org` case). -/
def buildInvitedEmail (ev : Json) : Except Unit EmailData := do
  let u ← jsGetJson ev "user"
  let ue ← jsGet u "email"
  let o ← jsGetJson ev "org"
  let onm ← jsGet o "name"
  let iss ← jsGetJson ev "issuer"
  let isn ← jsGet iss "name"
  let ise ← jsGet iss "email"
  let o2 ← jsGetJson ev "org"
  let onm2 ← jsGet o2 "name"
  let iu ← jsGetJson ev "invitationUrl"
  let o3 ← jsGetJson ev "org"
  let ted ← jsGet o3 "trialEndDate"
  let tedLine := if jsTruthy ted then "Note: This organization\x27s trial ends on " ++ jsToString ted else ""
  pure
    { toAddr := jsToString ue
      subject := "You\x27ve been invited to join " ++ jsToString onm
      body := "Hello,\n\nYou\x27ve been invited by " ++ jsToString isn ++ " (" ++ jsToString ise
        ++ ") to join the organization \"" ++ jsToString onm2
        ++ "\".\n\nClick the link below to accept your invitation:\n" ++ jsToString iu
        ++ "\n\n" ++ tedLine ++ "\n\nBest regards,\nThe Team" }

/-- One admin's notification payload (`org-access-requested` case). -/
def buildAccessEmail (ev admin : Json) : Except Unit EmailData := do
  let ae ← jsGetJson admin "email"
  let u ← jsGetJson ev "user"
  let ue ← jsGet u "email"
  let u2 ← jsGetJson ev "user"
  let un ← jsGet u2 "name"
  let u3 ← jsGetJson ev "user"
  let uid ← jsGet u3 "id"
  let og ← jsGetJson admin "orgs"
  let lines ←
    match og with
    | some (.arr orgs) => jsOrgLines orgs
    | _ => .error ()
  let nm := jsOrDefault un "Not provided"
  pure
    { toAddr := jsToString ae
      subject := "New Organization Access Request"
      body := "Hello,\n\nA user has requested access to your organization(s).\n\nRequester Details:\n- Email: "
        ++ jsToString ue ++ "\n- Name: " ++ nm ++ "\n- User ID: " ++ jsToString uid
        ++ "\n\nOrganizations they\x27re requesting access to:\n" ++ String.intercalate "\n" lines
        ++ "\n\nPlease review this request and take appropriate action in your admin dashboard.\n\nBest regards,\nThe Team" }

/-- The welcome email payload (`org-created` case). -/
def buildCreatedEmail (ev : Json) : Except Unit EmailData := do
  let u ← jsGetJson ev "user"
  let ue ← jsGet u "email"
  let o ← jsGetJson ev "org"
  let onm ← jsGet o "name"
  let u2 ← jsGetJson ev "user"
  let un ← jsGet u2 "name"
  let o2 ← jsGetJson ev "org"
  let onm2 ← jsGet o2 "name"
  let ws ← jsGetJson ev "workspaceName"
  let o3 ← jsGetJson ev "org"
  let oid ← jsGet o3 "id"
  let o4 ← jsGetJson ev "org"
  let dv ← jsGet o4 "domains"
  let domLine ←
    if jsTruthy dv then do
      let ds ← jsJoin dv ", "
      pure ("- Domains: " ++ ds)
    else pure ""
  let o5 ← jsGetJson ev "org"
  let ted ← jsGet o5 "trialEndDate"
  let tedLine := if jsTruthy ted then "- Trial ends: " ++ jsToString ted else ""
  let greet := jsOrDefault un "there"
  pure
    { toAddr := jsToString ue
      subject := "Welcome to " ++ jsToString onm ++ "!"
      body := "Hello " ++ greet ++ ",\n\nCongratulations! Your organization \"" ++ jsToString onm2
        ++ "\" has been successfully created.\n\nOrganization Details:\n- Organization Name: "
        ++ jsToString onm2 ++ "\n- Workspace Name: " ++ jsToString ws ++ "\n- Organization ID: "
        ++ jsToString oid ++ "\n" ++ domLine ++ "\n" ++ tedLine
        ++ "\n\nYou can now start inviting team members and setting up your workspace.\n\nBest regards,\nThe Team" }

/-- One guarded send: building the payload and invoking the sender
happen inside `try { ... } catch`, so neither a `TypeError` while
building nor a sender failure escapes.  An invocation is recorded (with
its failure flag) only if the payload was built. -/
def attemptOne (failAt : Nat → Bool) (idx : Nat) (build : Except Unit EmailData) :
    List (EmailData × Bool) :=
  match build with
  | .ok e => [(e, failAt idx)]
  | .error _ => []

/-- The `for (const admin of membraneEvent.orgAdmins)` loop: each
iteration is independently guarded, so one admin's failure never skips
the remaining admins. -/
def accessLoop (ev : Json) (failAt : Nat → Bool) (idx : Nat) : List Json → List (EmailData × Bool)
  | [] => []
  | admin :: rest =>
    match buildAccessEmail ev admin with
    | .ok e => (e, failAt idx) :: accessLoop ev failAt (idx + 1) rest
    | .error _ => accessLoop ev failAt idx rest

/-- The dispatch `switch`.  Returns whether an uncaught error escaped
to the outer `catch` (→ 500) and the sender invocations made. -/
def dispatchEvent (ev : Json) (failAt : Nat → Bool) : Bool × List (EmailData × Bool) :=
  match jsGetJson ev "type" with
  | .error _ => (true, [])
  | .ok tv =>
    match tv with
    | some (.str "user-invited-to-org") =>
      (match invitedLogReads ev with
       | .error _ => (true, [])
       | .ok _ => (false, attemptOne failAt 0 (buildInvitedEmail ev)))
    | some (.str "org-access-requested") =>
      (match accessLogReads ev with
       | .error _ => (true, [])
       | .ok _ =>
         match jsGetJson ev "orgAdmins" with
         | .error _ => (true, [])
         | .ok adm =>
           match jsIterate adm with
           | .error _ => (true, [])
           | .ok admins => (false, accessLoop ev failAt 0 admins))
    | some (.str "org-created") =>
      (match createdLogReads ev with
       | .error _ => (true, [])
       | .ok _ => (false, attemptOne failAt 0 (buildCreatedEmail ev)))
    | _ => (false, [])

/-! ## The three HTTP handlers -/

/-- An HTTP response together with the sender invocations the request
made (each with its failure flag). -/
structure HandlerResult where
  status : Nat
  body : String
  attempts : List (EmailData × Bool)
deriving DecidableEq, Repr

/-- `JSON.stringify({ error: "Invalid signature" })`. -/
def invalidSignatureBody : String := "\x7b\"error\":\"Invalid signature\"\x7d"

/-- `JSON.stringify({ error: "Invalid JSON" })`. -/
def invalidJsonBody : String := "\x7b\"error\":\"Invalid JSON\"\x7d"

/-- `JSON.stringify({ error: "Processing error" })`. -/
def processingErrorBody : String := "\x7b\"error\":\"Processing error\"\x7d"

/-- `JSON.stringify({ ok: true })`. -/
def okBody : String := "\x7b\"ok\":true\x7d"

/-- The AWS Lambda handler
(`src/aws-lambda/src/handlers/membraneWebhook.ts`).  `body` is
`event.body` (absent for a body-less request); `hdrLower`/`hdrUpper`
are the `x-signature` / `X-Signature` headers. -/
def awsHandler (secret : String) (body : Option String) (hdrLower hdrUpper : Option String)
    (failAt : Nat → Bool) : HandlerResult :=
  let rawBody := body.getD ""
  let signature := jsOrString hdrLower hdrUpper
  if ! verifySignature secret rawBody signature then
    ⟨401, invalidSignatureBody, []⟩
  else
    match membraneParse rawBody with
    | none => ⟨400, invalidJsonBody, []⟩
    | some ev =>
      match dispatchEvent ev failAt with
      | (true, atts) => ⟨500, processingErrorBody, atts⟩
      | (false, atts) => ⟨200, okBody, atts⟩

/-- The Azure Functions handler (`src/src/functions/membraneWebhook.ts`).
Its error responses set `body` to a plain string; its success response
uses `jsonBody: { ok: true }`.  `body` here is the resulting HTTP wire
body. -/
def azureHandler (secret rawBody : String) (signature : Option String)
    (failAt : Nat → Bool) : HandlerResult :=
  if ! verifySignature secret rawBody signature then
    ⟨401, "Invalid signature", []⟩
  else
    match membraneParse rawBody with
    | none => ⟨400, "Invalid JSON", []⟩
    | some ev =>
      match dispatchEvent ev failAt with
      | (true, atts) => ⟨500, "Processing error", atts⟩
      | (false, atts) => ⟨200, okBody, atts⟩

/-- The Google Cloud Functions handler (`src/unnamed/part_002`,
`membraneWebhook`).  The HTTP framework has already parsed the request
body into `reqBody`; the handler re-serializes it
(`const rawBody = JSON.stringify(req.body)`) and verifies the signature
against that re-serialization.  `event = req.body` is a plain
assignment that cannot throw, so the `catch` returning 400 is dead
code. -/
def membraneWebhookGC (secret method : String) (reqBody : Json) (hdrLower hdrUpper : Option String)
    (failAt : Nat → Bool) : HandlerResult :=
  if method ≠ "POST" then
    ⟨405, "\x7b\"error\":\"Method not allowed\"\x7d", []⟩
  else
    let rawBody := jsonStringify reqBody
    let signature := jsOrString hdrLower hdrUpper
    if ! verifySignature secret rawBody signature then
      ⟨401, invalidSignatureBody, []⟩
    else
      let ev := reqBody
      match dispatchEvent ev failAt with
      | (true, atts) => ⟨500, processingErrorBody, atts⟩
      | (false, atts) => ⟨200, okBody, atts⟩

/-! ## Syntactically valid events of the known variants

Lean records mirroring the three TypeScript event types, with their
canonical JSON encodings (fields in declaration order, optional fields
present exactly when set).  A request body that parses to such an
encoding is a syntactically valid event of a known variant. -/

/-- `{ id: string; name: string }`, one entry of an admin's `orgs`. -/
structure AdminOrg where
  id : String
  name : String
deriving DecidableEq, Repr

/-- `{ email: string; orgs: {id, name}[] }`, one entry of `orgAdmins`. -/
structure OrgAdmin where
  email : String
  orgs : List AdminOrg
deriving DecidableEq, Repr

/-- The `user-invited-to-org` event shape. -/
structure UserInvitedToOrg where
  invitationUrl : String
  issuerName : String
  issuerEmail : String
  userEmail : String
  orgId : String
  orgName : String
  trialEndDate : Option String
deriving DecidableEq, Repr

/-- The `org-access-requested` event shape. -/
structure OrgAccessRequested where
  userId : String
  userEmail : String
  userName : Option String
  orgAdmins : List OrgAdmin
deriving DecidableEq, Repr

/-- The `org-created` event shape. -/
structure OrgCreated where
  name : String
  workspaceName : String
  orgId : String
  orgRefId : String
  orgRefName : String
  domains : Option (List String)
  trialEndDate : Option String
  userName : Option String
  userEmail : String
deriving DecidableEq, Repr

/-- The `MembraneEvent` tagged union. -/
inductive MembraneEvent where
  | invited : UserInvitedToOrg → MembraneEvent
  | access : OrgAccessRequested → MembraneEvent
  | created : OrgCreated → MembraneEvent
deriving DecidableEq, Repr

/-- An optional string field. -/
def optField (k : String) (v : Option String) : List (String × Json) :=
  match v with
  | some s => [(k, .str s)]
  | none => []

/-- Canonical JSON encoding of a `user-invited-to-org` event. -/
def encodeInvited (e : UserInvitedToOrg) : Json :=
  .obj [("type", .str "user-invited-to-org"),
        ("invitationUrl", .str e.invitationUrl),
        ("issuer", .obj [("name", .str e.issuerName), ("email", .str e.issuerEmail)]),
        ("user", .obj [("email", .str e.userEmail)]),
        ("org", .obj ([("id", .str e.orgId), ("name", .str e.orgName)]
          ++ optField "trialEndDate" e.trialEndDate))]

/-- Canonical JSON encoding of one `orgAdmins` entry. -/
def encodeAdmin (a : OrgAdmin) : Json :=
  .obj [("email", .str a.email),
        ("orgs", .arr (a.orgs.map fun o => .obj [("id", .str o.id), ("name", .str o.name)]))]

/-- Canonical JSON encoding of an `org-access-requested` event. -/
def encodeAccess (e : OrgAccessRequested) : Json :=
  .obj [("type", .str "org-access-requested"),
        ("user", .obj ([("id", .str e.userId), ("email", .str e.userEmail)]
          ++ optField "name" e.userName)),
        ("orgAdmins", .arr (e.orgAdmins.map encodeAdmin))]

/-- Canonical JSON encoding of an `org-created` event. -/
def encodeCreated (e : OrgCreated) : Json :=
  .obj [("type", .str "org-created"),
        ("name", .str e.name),
        ("workspaceName", .str e.workspaceName),
        ("orgId", .str e.orgId),
        ("org", .obj ([("id", .str e.orgRefId), ("name", .str e.orgRefName)]
          ++ (match e.domains with
              | some ds => [("domains", Json.arr (ds.map Json.str))]
              | none => [])
          ++ optField "trialEndDate" e.trialEndDate)),
        ("user", .obj (optField "name" e.userName ++ [("email", .str e.userEmail)]))]

/-- Canonical JSON encoding of a known-variant event. -/
def encodeEvent : MembraneEvent → Json
  | .invited e => encodeInvited e
  | .access e => encodeAccess e
  | .created e => encodeCreated e

/-- The addressees the spec prescribes for an event: the invited user,
every org admin, or the org creator. -/
def addressees : MembraneEvent → List String
  | .invited e => [e.userEmail]
  | .access e => e.orgAdmins.map OrgAdmin.email
  | .created e => [e.userEmail]

/-- Whether a JSON value carries one of the three known `type` tags
(the `switch` matches a case rather than falling through to `default`). -/
def knownTag (j : Json) : Bool :=
  match j with
  | .obj fs =>
    match jsonLookup fs "type" with
    | some (.str t) =>
      t = "user-invited-to-org" || t = "org-access-requested" || t = "org-created"
    | _ => false
  | _ => false

/-- The four `(status, body)` pairs of the spec's response table, with
the JSON bodies the AWS handler serializes. -/
def awsResponsePairs : List (Nat × String) :=
  [(401, invalidSignatureBody), (400, invalidJsonBody), (500, processingErrorBody), (200, okBody)]

/-- The `(status, wire body)` pairs the Azure handler can produce: the
same four statuses, but plain-string error bodies. -/
def azureResponsePairs : List (Nat × String) :=
  [(401, "Invalid signature"), (400, "Invalid JSON"), (500, "Processing error"), (200, okBody)]

/-- A concrete `org-access-requested` request body with two admins. -/
def sampleAccessBody : String :=
  "\x7b\"type\":\"org-access-requested\",\"user\":\x7b\"id\":\"u1\",\"email\":\"u@x.com\"\x7d,\"orgAdmins\":[\x7b\"email\":\"a1@x.com\",\"orgs\":[\x7b\"id\":\"o1\",\"name\":\"O1\"\x7d]\x7d,\x7b\"email\":\"a2@x.com\",\"orgs\":[]\x7d]\x7d"

/-- The structured event `sampleAccessBody` denotes. -/
def sampleAccessEvent : OrgAccessRequested :=
  { userId := "u1", userEmail := "u@x.com", userName := none,
    orgAdmins := [{ email := "a1@x.com", orgs := [{ id := "o1", name := "O1" }] },
                  { email := "a2@x.com", orgs := [] }] }

/-- The spec's example scenario: a minimal well-formed `org-created` body. -/
def sampleCreatedBody : String :=
  "\x7b\"type\":\"org-created\",\"name\":\"Acme\",\"workspaceName\":\"ws1\",\"orgId\":\"o1\",\"org\":\x7b\"id\":\"o1\",\"name\":\"Acme Inc\"\x7d,\"user\":\x7b\"email\":\"a@x.com\"\x7d\x7d"

/-- The structured event `sampleCreatedBody` denotes. -/
def sampleCreatedEvent : OrgCreated :=
  { name := "Acme", workspaceName := "ws1", orgId := "o1", orgRefId := "o1",
    orgRefName := "Acme Inc", domains := none, trialEndDate := none,
    userName := none, userEmail := "a@x.com" }

/-! ## Lemmas about the timing-safe comparison -/

theorem tsFold_self (a : List Nat) : timingSafeEqualFold a a = (0, a.length) := by
  induction a with
  | nil => rfl
  | cons x xs ih => simp [timingSafeEqualFold, ih]

theorem lor_zero_split {a b : Nat} (h : a ||| b = 0) : a = 0 ∧ b = 0 := by
  have hk : ∀ k, Nat.testBit a k = false ∧ Nat.testBit b k = false := by
    intro k
    have := congrArg (fun n => Nat.testBit n k) h
    simpa [Nat.testBit_lor] using this
  exact ⟨Nat.eq_of_testBit_eq fun k => by simp [(hk k).1],
         Nat.eq_of_testBit_eq fun k => by simp [(hk k).2]⟩

theorem tsFold_eq_of_zero :
    ∀ a b : List Nat, a.length = b.length → (timingSafeEqualFold a b).1 = 0 → a = b := by
  intro a
  induction a with
  | nil =>
    intro b hlen _
    cases b with
    | nil => rfl
    | cons y ys => simp at hlen
  | cons x xs ih =>
    intro b hlen hz
    cases b with
    | nil => simp at hlen
    | cons y ys =>
      have hz' : (timingSafeEqualFold xs ys).1 ||| (x ^^^ y) = 0 := hz
      obtain ⟨h1, h2⟩ := lor_zero_split hz'
      have hxy : x = y := Nat.xor_eq_zero.mp h2
      have hlen' : xs.length = ys.length := by simpa using hlen
      rw [hxy, ih ys hlen' h1]

theorem tsFold_cost : ∀ a b : List Nat, (timingSafeEqualFold a b).2 = min a.length b.length := by
  intro a
  induction a with
  | nil => intro b; cases b <;> simp [timingSafeEqualFold]
  | cons x xs ih =>
    intro b
    cases b with
    | nil => simp [timingSafeEqualFold]
    | cons y ys => simp [timingSafeEqualFold, ih ys, Nat.succ_min_succ]

/-! ## Lemmas about UTF-8 and the hex digest -/

theorem encodeChar_ascii {c : Char} (h : c.toNat < 128) : encodeChar c = [c.toNat] := by
  simp [encodeChar, h]

theorem encodeChar_head_high {c : Char} (h : ¬ c.toNat < 128) :
    ∃ x xs, encodeChar c = x :: xs ∧ 128 ≤ x := by
  simp only [encodeChar, if_neg h]
  split
  · exact ⟨_, _, rfl, by omega⟩
  · split
    · exact ⟨_, _, rfl, by omega⟩
    · exact ⟨_, _, rfl, by omega⟩

theorem utf8Chars_cons (c : Char) (cs : List Char) :
    utf8Chars (c :: cs) = encodeChar c ++ utf8Chars cs := rfl

theorem encodeChar_ne_nil (c : Char) : encodeChar c ≠ [] := by
  by_cases h : c.toNat < 128
  · rw [encodeChar_ascii h]; simp
  · obtain ⟨x, xs, he, _⟩ := encodeChar_head_high h
    rw [he]; simp

/-- UTF-8 byte equality forces string equality when one side is
all-ASCII (every multi-byte sequence starts with a byte ≥ 128). -/
theorem utf8_eq_of_ascii :
    ∀ t s : List Char, (∀ c ∈ t, c.toNat < 128) → utf8Chars s = utf8Chars t → s = t := by
  intro t
  induction t with
  | nil =>
    intro s _ h
    cases s with
    | nil => rfl
    | cons c cs =>
      rw [utf8Chars_cons] at h
      simp only [utf8Chars] at h
      exact absurd (List.append_eq_nil.mp h).1 (encodeChar_ne_nil c)
  | cons c t' ih =>
    intro s hascii h
    have hc : c.toNat < 128 := hascii c (List.mem_cons_self c t')
    rw [utf8Chars_cons, encodeChar_ascii hc] at h
    cases s with
    | nil =>
      exact absurd h.symm (by simp [utf8Chars])
    | cons c' s' =>
      rw [utf8Chars_cons] at h
      by_cases hc' : c'.toNat < 128
      · rw [encodeChar_ascii hc'] at h
        simp only [List.cons_append, List.nil_append, List.cons.injEq] at h
        have : c' = c := Char.ext (UInt32.ext h.1)
        rw [this, ih s' (fun d hd => hascii d (List.mem_cons_of_mem c hd)) h.2]
      · obtain ⟨x, xs, he, hx⟩ := encodeChar_head_high hc'
        rw [he] at h
        simp only [List.cons_append, List.cons.injEq] at h
        omega

theorem hexDigit_ascii (n : Nat) : (hexDigit n).toNat < 128 := by
  rcases Nat.lt_or_ge n 16 with h | h
  · interval_cases n <;> decide
  · have hf : hexDigit n = 'f' := by
      unfold hexDigit
      rw [if_neg (by omega : ¬ n = 0), if_neg (by omega : ¬ n = 1), if_neg (by omega : ¬ n = 2),
          if_neg (by omega : ¬ n = 3), if_neg (by omega : ¬ n = 4), if_neg (by omega : ¬ n = 5),
          if_neg (by omega : ¬ n = 6), if_neg (by omega : ¬ n = 7), if_neg (by omega : ¬ n = 8),
          if_neg (by omega : ¬ n = 9), if_neg (by omega : ¬ n = 10), if_neg (by omega : ¬ n = 11),
          if_neg (by omega : ¬ n = 12), if_neg (by omega : ¬ n = 13), if_neg (by omega : ¬ n = 14)]
    rw [hf]
    decide

theorem hmacHex_ascii (secret raw : String) :
    ∀ c ∈ (hmacSha256Hex secret raw).data, c.toNat < 128 := by
  intro c hc
  simp only [hmacSha256Hex, bytesToHex] at hc
  have hc' : c ∈ (hmacSha256 (utf8Bytes secret) (utf8Bytes raw)).flatMap hexByte := hc
  obtain ⟨b, _, hmem⟩ := List.mem_flatMap.mp hc'
  simp only [hexByte, List.mem_cons, List.mem_singleton] at hmem
  rcases hmem with h | h | h
  · rw [h]; exact hexDigit_ascii _
  · rw [h]; exact hexDigit_ascii _
  · exact absurd h (List.not_mem_nil c)

theorem shaCompress_length (hv b : List Nat) : (shaCompress hv b).length = 8 := rfl

theorem sha_fold_length :
    ∀ (blocks : List (List Nat)) (hv : List Nat), hv.length = 8 →
      (blocks.foldl (fun acc blk => shaCompress acc (bytesToWords blk)) hv).length = 8 := by
  intro blocks
  induction blocks with
  | nil => intro hv h; simpa using h
  | cons b bs ih => intro hv _; exact ih _ (shaCompress_length hv (bytesToWords b))

theorem flatMap_wordBytes_length (l : List Nat) : (l.flatMap wordBytes).length = 4 * l.length := by
  induction l with
  | nil => rfl
  | cons w ws ih => simp [wordBytes, ih]; omega

theorem sha256Bytes_length (msg : List Nat) : (sha256Bytes msg).length = 32 := by
  show (((toBlocks (shaPad msg)).foldl (fun acc blk => shaCompress acc (bytesToWords blk))
      shaH0).flatMap wordBytes).length = 32
  rw [flatMap_wordBytes_length, sha_fold_length (toBlocks (shaPad msg)) shaH0 rfl]

theorem flatMap_hexByte_length (l : List Nat) : (l.flatMap hexByte).length = 2 * l.length := by
  induction l with
  | nil => rfl
  | cons b bs ih => simp [hexByte, ih]; omega

theorem hmacHex_length (secret raw : String) : (hmacSha256Hex secret raw).length = 64 := by
  show ((hmacSha256 (utf8Bytes secret) (utf8Bytes raw)).flatMap hexByte).length = 64
  rw [flatMap_hexByte_length]
  have h32 : (hmacSha256 (utf8Bytes secret) (utf8Bytes raw)).length = 32 := sha256Bytes_length _
  rw [h32]

theorem hmacHex_ne_empty (secret raw : String) : hmacSha256Hex secret raw ≠ "" := by
  intro h
  have := hmacHex_length secret raw
  rw [h] at this
  simp at this

/-! ## Functional characterisation of `verifySignature` -/

theorem verifySignature_compare (secret rawBody s : String) (hs : secret ≠ "") (hse : s ≠ "") :
    verifySignature secret rawBody (some s) =
      ((utf8Bytes s).length == (utf8Bytes (hmacSha256Hex secret rawBody)).length &&
        timingSafeEqual (utf8Bytes s) (utf8Bytes (hmacSha256Hex secret rawBody))) := by
  simp [verifySignature, hs, hse]

theorem verifySignature_true_iff (secret rawBody : String) (sig : Option String) :
    verifySignature secret rawBody sig = true ↔
      (secret = "" ∨ ∃ s, sig = some s ∧ s = hmacSha256Hex secret rawBody) := by
  by_cases hs : secret = ""
  · simp [verifySignature, hs]
  · cases sig with
    | none =>
      simp [verifySignature, hs]
    | some s =>
      by_cases hse : s = ""
      · subst hse
        constructor
        · intro h
          have : verifySignature secret rawBody (some "") = false := by
            simp [verifySignature, hs]
          rw [this] at h
          exact absurd h (by simp)
        · rintro (h | ⟨x, hx, hxe⟩)
          · exact absurd h hs
          · cases hx
            exact absurd hxe.symm (hmacHex_ne_empty _ _)
      · rw [verifySignature_compare secret rawBody s hs hse]
        constructor
        · intro h
          right
          rw [Bool.and_eq_true] at h
          have hlen : (utf8Bytes s).length = (utf8Bytes (hmacSha256Hex secret rawBody)).length := by
            simpa using h.1
          have hz : (timingSafeEqualFold (utf8Bytes s)
              (utf8Bytes (hmacSha256Hex secret rawBody))).1 = 0 := by
            simpa [timingSafeEqual] using h.2
          have hb : utf8Bytes s = utf8Bytes (hmacSha256Hex secret rawBody) :=
            tsFold_eq_of_zero _ _ hlen hz
          have hdata : s.data = (hmacSha256Hex secret rawBody).data :=
            utf8_eq_of_ascii _ _ (hmacHex_ascii secret rawBody) hb
          have hmk : String.mk s.data = String.mk ((hmacSha256Hex secret rawBody).data) :=
            congrArg String.mk hdata
          exact ⟨s, rfl, hmk⟩
        · rintro (h | ⟨x, hx, hxe⟩)
          · exact absurd h hs
          · cases hx
            rw [hxe]
            simp [timingSafeEqual, tsFold_self]

/-! ## Lemmas about the dispatch `switch` -/

theorem dispatch_encodeInvited (e : UserInvitedToOrg) (f : Nat → Bool) :
    ∃ em, dispatchEvent (encodeInvited e) f = (false, [(em, f 0)]) ∧ em.toAddr = e.userEmail := by
  rcases e with ⟨url, inm, iem, uem, oid, onm, ted⟩
  cases ted <;> exact ⟨_, rfl, rfl⟩

theorem dispatch_encodeCreated (e : OrgCreated) (f : Nat → Bool) :
    ∃ em, dispatchEvent (encodeCreated e) f = (false, [(em, f 0)]) ∧ em.toAddr = e.userEmail := by
  rcases e with ⟨nm, ws, oid, orid, ornm, dom, ted, unm, uem⟩
  cases dom <;> cases ted <;> cases unm <;> exact ⟨_, rfl, rfl⟩

theorem jsOrgLines_encode (orgs : List AdminOrg) :
    jsOrgLines (orgs.map fun o => Json.obj [("id", Json.str o.id), ("name", Json.str o.name)]) =
      .ok (orgs.map fun o => "- " ++ o.name ++ " (ID: " ++ o.id ++ ")") := by
  induction orgs with
  | nil => rfl
  | cons o os ih =>
    simp only [List.map_cons, jsOrgLines, jsGetJson, jsonLookup, reduceIte, bind, Except.bind, ih]
    rfl

theorem bind_ok_shift {ls : List String} (X : Except Unit (List String))
    (k : List String → Except Unit EmailData) (t : String) (h : X = Except.ok ls)
    (hk : ∃ em, k ls = Except.ok em ∧ em.toAddr = t) :
    ∃ em, Except.bind X k = Except.ok em ∧ em.toAddr = t := by
  rw [h]; exact hk

theorem buildAccess_encode (e : OrgAccessRequested) (a : OrgAdmin) :
    ∃ em, buildAccessEmail (encodeAccess e) (encodeAdmin a) = .ok em ∧ em.toAddr = a.email := by
  rcases e with ⟨uid, uem, unm, adm⟩
  rcases a with ⟨aem, orgs⟩
  have h := jsOrgLines_encode orgs
  cases unm with
  | none => exact bind_ok_shift _ _ _ h ⟨_, rfl, rfl⟩
  | some nm => exact bind_ok_shift _ _ _ h ⟨_, rfl, rfl⟩

theorem accessLoop_encode (e : OrgAccessRequested) (f : Nat → Bool) :
    ∀ (admins : List OrgAdmin) (i : Nat),
      (accessLoop (encodeAccess e) f i (admins.map encodeAdmin)).map (fun p => p.1.toAddr)
        = admins.map OrgAdmin.email := by
  intro admins
  induction admins with
  | nil => intro i; rfl
  | cons a as ih =>
    intro i
    obtain ⟨em, hb, ht⟩ := buildAccess_encode e a
    simp only [List.map_cons, accessLoop, hb]
    simp [ht, ih (i + 1)]

theorem dispatch_encodeAccess (e : OrgAccessRequested) (f : Nat → Bool) :
    ∃ atts, dispatchEvent (encodeAccess e) f = (false, atts) ∧
      atts.map (fun p => p.1.toAddr) = e.orgAdmins.map OrgAdmin.email := by
  rcases e with ⟨uid, uem, unm, adm⟩
  cases unm with
  | none => exact ⟨_, rfl, accessLoop_encode ⟨uid, uem, none, adm⟩ f adm 0⟩
  | some nm => exact ⟨_, rfl, accessLoop_encode ⟨uid, uem, some nm, adm⟩ f adm 0⟩

theorem dispatch_encodeEvent (ev : MembraneEvent) (f : Nat → Bool) :
    ∃ atts, dispatchEvent (encodeEvent ev) f = (false, atts) ∧
      atts.map (fun p => p.1.toAddr) = addressees ev := by
  cases ev with
  | invited e =>
    obtain ⟨em, h1, h2⟩ := dispatch_encodeInvited e f
    exact ⟨_, h1, by simp [addressees, h2]⟩
  | access e =>
    obtain ⟨atts, h1, h2⟩ := dispatch_encodeAccess e f
    exact ⟨atts, h1, h2⟩
  | created e =>
    obtain ⟨em, h1, h2⟩ := dispatch_encodeCreated e f
    exact ⟨_, h1, by simp [addressees, h2]⟩

theorem attemptOne_map_fst (f g : Nat → Bool) (i j : Nat) (b : Except Unit EmailData) :
    (attemptOne f i b).map Prod.fst = (attemptOne g j b).map Prod.fst := by
  cases b <;> rfl

theorem accessLoop_map_fst (ev : Json) (f g : Nat → Bool) :
    ∀ (admins : List Json) (i j : Nat),
      (accessLoop ev f i admins).map Prod.fst = (accessLoop ev g j admins).map Prod.fst := by
  intro admins
  induction admins with
  | nil => intro i j; rfl
  | cons a as ih =>
    intro i j
    simp only [accessLoop]
    rcases hb : buildAccessEmail ev a with err | em
    · simp [hb, ih i j]
    · simp [hb, ih (i + 1) (j + 1)]

/-- The failure oracle influences nothing but the recorded failure
flags: neither whether the dispatch threw nor which emails it attempted. -/
theorem dispatch_oracle_invariant (ev : Json) (f g : Nat → Bool) :
    (dispatchEvent ev f).1 = (dispatchEvent ev g).1 ∧
      (dispatchEvent ev f).2.map Prod.fst = (dispatchEvent ev g).2.map Prod.fst := by
  rcases hty : jsGetJson ev "type" with err | tv
  · simp [dispatchEvent, hty]
  · rcases tv with _ | j
    · simp [dispatchEvent, hty]
    · cases j with
      | null => simp [dispatchEvent, hty]
      | bool b => simp [dispatchEvent, hty]
      | num lex => simp [dispatchEvent, hty]
      | arr xs => simp [dispatchEvent, hty]
      | obj fs2 => simp [dispatchEvent, hty]
      | str t =>
        by_cases h1 : t = "user-invited-to-org"
        · subst h1
          rcases hlog : invitedLogReads ev with e2 | u
          · simp [dispatchEvent, hty, hlog]
          · simp [dispatchEvent, hty, hlog, attemptOne_map_fst f g 0 0]
        · by_cases h2 : t = "org-access-requested"
          · subst h2
            rcases hlog : accessLogReads ev with e2 | u
            · simp [dispatchEvent, hty, hlog]
            · rcases hadm : jsGetJson ev "orgAdmins" with e3 | adm
              · simp [dispatchEvent, hty, hlog, hadm]
              · rcases hit : jsIterate adm with e4 | admins
                · simp [dispatchEvent, hty, hlog, hadm, hit]
                · simp [dispatchEvent, hty, hlog, hadm, hit,
                    accessLoop_map_fst ev f g admins 0 0]
          · by_cases h3 : t = "org-created"
            · subst h3
              rcases hlog : createdLogReads ev with e2 | u
              · simp [dispatchEvent, hty, hlog]
              · simp [dispatchEvent, hty, hlog, attemptOne_map_fst f g 0 0]
            · simp [dispatchEvent, hty, h1, h2, h3]

/-- An event value that is not `null` and carries no known tag falls
through to the `default` arm: no throw, no send. -/
theorem dispatch_unknown (f : Nat → Bool) (j : Json) (hnull : j ≠ Json.null)
    (hk : knownTag j = false) : dispatchEvent j f = (false, []) := by
  cases j with
  | null => exact absurd rfl hnull
  | bool b => rfl
  | num lex => rfl
  | str s => rfl
  | arr xs => rfl
  | obj fs =>
    rcases hl : jsonLookup fs "type" with _ | v
    · simp [dispatchEvent, jsGetJson, hl]
    · cases v with
      | null => simp [dispatchEvent, jsGetJson, hl]
      | bool b => simp [dispatchEvent, jsGetJson, hl]
      | num lex => simp [dispatchEvent, jsGetJson, hl]
      | arr xs => simp [dispatchEvent, jsGetJson, hl]
      | obj fs2 => simp [dispatchEvent, jsGetJson, hl]
      | str t =>
        simp only [knownTag, hl, Bool.or_eq_false_iff, decide_eq_false_iff_not] at hk
        obtain ⟨⟨h1, h2⟩, h3⟩ := hk
        simp [dispatchEvent, jsGetJson, hl, h1, h2, h3]

/-! ## Claim theorems -/

/-- C2: `verify(B, X, S)` returns true if and only if `S` is empty
(open mode, unconditionally true), or `X` is present and equals the
lowercase-hex HMAC-SHA256 of `S` over `B`; hence with a non-empty
secret an absent or differing signature yields false. -/
theorem c2_verifySignature_iff (secret rawBody : String) (sig : Option String) :
    verifySignature secret rawBody sig = true ↔
      (secret = "" ∨ ∃ s, sig = some s ∧ s = hmacSha256Hex secret rawBody) :=
  verifySignature_true_iff secret rawBody sig

theorem c2_verifySignature_iff_witness :
    verifySignature "s3cr3t" "body" (some (hmacSha256Hex "s3cr3t" "body")) = true :=
  (c2_verifySignature_iff "s3cr3t" "body" (some (hmacSha256Hex "s3cr3t" "body"))).mpr
    (Or.inr ⟨_, rfl, rfl⟩)

/-- C8: after the byte-length check, the constant-time comparison's
cost (number of byte iterations of `crypto.timingSafeEqual`'s loop)
between a supplied signature and the expected digest is the same for
any two equal-length supplied signatures — it does not depend on the
position of the first mismatched byte. -/
theorem c8_constant_time_cost (secret raw sig sig' : String)
    (h1 : (utf8Bytes sig).length = (utf8Bytes (hmacSha256Hex secret raw)).length)
    (h2 : (utf8Bytes sig').length = (utf8Bytes (hmacSha256Hex secret raw)).length) :
    timingSafeEqualCost (utf8Bytes sig) (utf8Bytes (hmacSha256Hex secret raw)) =
      timingSafeEqualCost (utf8Bytes sig') (utf8Bytes (hmacSha256Hex secret raw)) := by
  simp [timingSafeEqualCost, tsFold_cost, h1, h2]

theorem c8_constant_time_cost_witness :
    timingSafeEqualCost
        (utf8Bytes "0000000000000000000000000000000000000000000000000000000000000000")
        (utf8Bytes (hmacSha256Hex "k" "b")) =
      timingSafeEqualCost
        (utf8Bytes "ffffffffffffffffffffffffffffffffffffffffffffffffffffffffffffffff")
        (utf8Bytes (hmacSha256Hex "k" "b")) :=
  c8_constant_time_cost "k" "b"
    "0000000000000000000000000000000000000000000000000000000000000000"
    "ffffffffffffffffffffffffffffffffffffffffffffffffffffffffffffffff"
    (by decide) (by decide)

/-- C3 (amended): malformed JSON — a raw body `JSON.parse` rejects —
yields 400 with body `{"error":"Invalid JSON"}` and no send attempt;
but a missing required field of a recognized type is *not* a parse
failure in this code (see the counterexample, where it surfaces as a
500). -/
theorem c3_malformed_json_400 (secret raw : String) (hL hU : Option String) (f : Nat → Bool)
    (hsig : verifySignature secret raw (jsOrString hL hU) = true)
    (hparse : membraneParse raw = none) :
    awsHandler secret (some raw) hL hU f = ⟨400, invalidJsonBody, []⟩ := by
  simp [awsHandler, hsig, hparse]

theorem c3_malformed_json_400_witness :
    awsHandler "" (some "not json") none none (fun _ => false) = ⟨400, invalidJsonBody, []⟩ :=
  c3_malformed_json_400 "" "not json" none none (fun _ => false) (by decide) (by rfl)

/-- C3 counterexample: `{"type":"org-created"}` is valid JSON of a
recognized type with required fields missing and a correct signature,
yet the handler returns 500 `{"error":"Processing error"}` — not the
400 `{"error":"Invalid JSON"}` the claim prescribes — because the code
only runs `JSON.parse` and the missing-field access throws later. -/
theorem c3_missing_fields_500 :
    membraneParse "\x7b\"type\":\"org-created\"\x7d" =
      some (Json.obj [("type", Json.str "org-created")]) ∧
    awsHandler "k" (some "\x7b\"type\":\"org-created\"\x7d")
        (some (hmacSha256Hex "k" "\x7b\"type\":\"org-created\"\x7d")) none (fun _ => false) =
      ⟨500, processingErrorBody, []⟩ ∧
    ((awsHandler "k" (some "\x7b\"type\":\"org-created\"\x7d")
        (some (hmacSha256Hex "k" "\x7b\"type\":\"org-created\"\x7d")) none
        (fun _ => false)).status == 400) = false := by
  exact ⟨rfl, by decide, by decide⟩

/-- C4: the email-failure oracle never changes the HTTP outcome or the
set of attempted sends (failures are caught per send); and for an
`org-access-requested` event every `orgAdmins` entry gets exactly one
send attempt regardless of which sends fail, with a 200 response. -/
theorem c4_email_failures_do_not_change_outcome :
    (∀ (secret : String) (body hL hU : Option String) (f g : Nat → Bool),
      (awsHandler secret body hL hU f).status = (awsHandler secret body hL hU g).status ∧
      (awsHandler secret body hL hU f).body = (awsHandler secret body hL hU g).body ∧
      (awsHandler secret body hL hU f).attempts.map Prod.fst
        = (awsHandler secret body hL hU g).attempts.map Prod.fst) ∧
    (∀ (secret raw : String) (hL hU : Option String) (f : Nat → Bool) (e : OrgAccessRequested),
      membraneParse raw = some (encodeAccess e) →
      verifySignature secret raw (jsOrString hL hU) = true →
      (awsHandler secret (some raw) hL hU f).status = 200 ∧
      (awsHandler secret (some raw) hL hU f).attempts.map (fun p => p.1.toAddr)
        = e.orgAdmins.map OrgAdmin.email) := by
  constructor
  · intro secret body hL hU f g
    cases hv : verifySignature secret (body.getD "") (jsOrString hL hU) with
    | false => simp [awsHandler, hv]
    | true =>
      rcases hp : membraneParse (body.getD "") with _ | ev
      · simp [awsHandler, hv, hp]
      · obtain ⟨h1, h2⟩ := dispatch_oracle_invariant ev f g
        rcases hdf : dispatchEvent ev f with ⟨thrf, attsf⟩
        rcases hdg : dispatchEvent ev g with ⟨thrg, attsg⟩
        rw [hdf, hdg] at h1 h2
        simp only at h1 h2
        subst h1
        cases thrf <;> simp [awsHandler, hv, hp, hdf, hdg, h2]
  · intro secret raw hL hU f e hp hs
    obtain ⟨atts, hd, hm⟩ := dispatch_encodeAccess e f
    simp [awsHandler, hs, hp, hd, hm]

theorem c4_email_failures_witness :
    (awsHandler "" (some sampleAccessBody) none none (fun n => n == 0)).status = 200 ∧
    (awsHandler "" (some sampleAccessBody) none none (fun n => n == 0)).attempts.map
        (fun p => p.1.toAddr) = ["a1@x.com", "a2@x.com"] := by
  have h := c4_email_failures_do_not_change_outcome.2 "" sampleAccessBody none none
    (fun n => n == 0) sampleAccessEvent (by rfl) (by decide)
  exact ⟨h.1, h.2⟩

/-- C5: a correctly signed, syntactically valid event of a known
variant yields a 200 `{"ok":true}` response and exactly one Email
Sender invocation per addressee: the invited user, every entry of
`orgAdmins` (none when empty), or the org creator. -/
theorem c5_one_send_per_addressee (secret raw : String) (hL hU : Option String) (f : Nat → Bool)
    (ev : MembraneEvent)
    (hparse : membraneParse raw = some (encodeEvent ev))
    (hsig : verifySignature secret raw (jsOrString hL hU) = true) :
    (awsHandler secret (some raw) hL hU f).status = 200 ∧
    (awsHandler secret (some raw) hL hU f).body = okBody ∧
    (awsHandler secret (some raw) hL hU f).attempts.map (fun p => p.1.toAddr) = addressees ev := by
  obtain ⟨atts, hd, hm⟩ := dispatch_encodeEvent ev f
  simp [awsHandler, hsig, hparse, hd, hm]

theorem c5_one_send_per_addressee_witness :
    (awsHandler "" (some sampleCreatedBody) none none (fun _ => false)).status = 200 ∧
    (awsHandler "" (some sampleCreatedBody) none none (fun _ => false)).body = okBody ∧
    (awsHandler "" (some sampleCreatedBody) none none (fun _ => false)).attempts.map
        (fun p => p.1.toAddr) = ["a@x.com"] := by
  have h := c5_one_send_per_addressee "" sampleCreatedBody none none (fun _ => false)
    (.created sampleCreatedEvent) (by rfl) (by decide)
  exact ⟨h.1, h.2.1, h.2.2⟩

/-- C6 (amended): with a valid signature and valid JSON that is not the
literal `null`, an unrecognized `type` falls through the `switch`
default: 200 `{"ok":true}` and zero sends.  The JSON literal `null` is
the one valid-JSON exception: `null.type` throws, giving 500 (see the
counterexample). -/
theorem c6_unknown_tag_200 (secret raw : String) (hL hU : Option String) (f : Nat → Bool)
    (j : Json)
    (hsig : verifySignature secret raw (jsOrString hL hU) = true)
    (hparse : membraneParse raw = some j)
    (hnull : j ≠ Json.null)
    (hk : knownTag j = false) :
    awsHandler secret (some raw) hL hU f = ⟨200, okBody, []⟩ := by
  have hd := dispatch_unknown f j hnull hk
  simp [awsHandler, hsig, hparse, hd]

theorem c6_unknown_tag_200_witness :
    awsHandler "" (some "\x7b\"type\":\"mystery-event\"\x7d") none none (fun _ => false) =
      ⟨200, okBody, []⟩ :=
  c6_unknown_tag_200 "" "\x7b\"type\":\"mystery-event\"\x7d" none none (fun _ => false)
    (Json.obj [("type", Json.str "mystery-event")])
    (by decide) (by rfl) (by exact fun h => Json.noConfusion h) (by rfl)

/-- C6 counterexample: the raw body `null` is valid JSON with no known
type and is correctly signed, yet the handler returns 500 — not the
200 with zero invocations the claim prescribes — because
`membraneEvent.type` throws a `TypeError` on `null`. -/
theorem c6_null_body_500 :
    membraneParse "null" = some Json.null ∧
    awsHandler "k" (some "null") (some (hmacSha256Hex "k" "null")) none (fun _ => false) =
      ⟨500, processingErrorBody, []⟩ ∧
    ((awsHandler "k" (some "null") (some (hmacSha256Hex "k" "null")) none
        (fun _ => false)).status == 200) = false := by
  exact ⟨rfl, by decide, by decide⟩

/-- C7 (amended): the AWS handler's response is always exactly one of
the four `(status, body)` pairs of the response table with the JSON
object bodies; the Azure handler produces the same four statuses but
its error bodies are the plain strings `Invalid signature`,
`Invalid JSON`, `Processing error` (only the 200 body is the JSON
object `{"ok":true}`). -/
theorem c7_response_tables :
    (∀ (secret : String) (body hL hU : Option String) (f : Nat → Bool),
      ((awsHandler secret body hL hU f).status, (awsHandler secret body hL hU f).body)
        ∈ awsResponsePairs) ∧
    (∀ (secret raw : String) (sig : Option String) (f : Nat → Bool),
      ((azureHandler secret raw sig f).status, (azureHandler secret raw sig f).body)
        ∈ azureResponsePairs) := by
  constructor
  · intro secret body hL hU f
    cases hv : verifySignature secret (body.getD "") (jsOrString hL hU) with
    | false => simp [awsHandler, hv, awsResponsePairs]
    | true =>
      rcases hp : membraneParse (body.getD "") with _ | ev
      · simp [awsHandler, hv, hp, awsResponsePairs]
      · rcases hd : dispatchEvent ev f with ⟨thr, atts⟩
        cases thr <;> simp [awsHandler, hv, hp, hd, awsResponsePairs]
  · intro secret raw sig f
    cases hv : verifySignature secret raw sig with
    | false => simp [azureHandler, hv, azureResponsePairs]
    | true =>
      rcases hp : membraneParse raw with _ | ev
      · simp [azureHandler, hv, hp, azureResponsePairs]
      · rcases hd : dispatchEvent ev f with ⟨thr, atts⟩
        cases thr <;> simp [azureHandler, hv, hp, hd, azureResponsePairs]

theorem c7_response_tables_witness :
    ((awsHandler "k" (some "x") none none (fun _ => false)).status,
      (awsHandler "k" (some "x") none none (fun _ => false)).body) ∈ awsResponsePairs :=
  c7_response_tables.1 "k" (some "x") none none (fun _ => false)

/-- C7 counterexample: the Azure variant's 401 response body is the
plain string `Invalid signature`, which is not one of the four exact
JSON-object pairs the claim prescribes. -/
theorem c7_azure_string_body :
    azureHandler "k" "x" none (fun _ => false) = ⟨401, "Invalid signature", []⟩ ∧
    (awsResponsePairs.contains
      ((azureHandler "k" "x" none (fun _ => false)).status,
        (azureHandler "k" "x" none (fun _ => false)).body)) = false := by
  exact ⟨rfl, by decide⟩

/-- C9: in the Google Cloud variant every POST request that reaches the
handler gets status 401, 500, or 200 — never 400 — because the event is
taken from the framework's already-parsed `req.body` with no parse step
that can fail (the `catch` around `event = req.body` is dead code). -/
theorem c9_gcloud_never_400 (secret : String) (body : Json) (hL hU : Option String)
    (f : Nat → Bool) :
    (membraneWebhookGC secret "POST" body hL hU f).status = 401 ∨
    (membraneWebhookGC secret "POST" body hL hU f).status = 500 ∨
    (membraneWebhookGC secret "POST" body hL hU f).status = 200 := by
  cases hv : verifySignature secret (jsonStringify body) (jsOrString hL hU) with
  | false => left; simp [membraneWebhookGC, hv]
  | true =>
    rcases hd : dispatchEvent body f with ⟨thr, atts⟩
    cases thr with
    | true => right; left; simp [membraneWebhookGC, hv, hd]
    | false => right; right; simp [membraneWebhookGC, hv, hd]

theorem c9_gcloud_never_400_witness :
    (membraneWebhookGC "k" "POST" (Json.obj []) none none (fun _ => false)).status = 401 ∨
    (membraneWebhookGC "k" "POST" (Json.obj []) none none (fun _ => false)).status = 500 ∨
    (membraneWebhookGC "k" "POST" (Json.obj []) none none (fun _ => false)).status = 200 :=
  c9_gcloud_never_400 "k" (Json.obj []) none none (fun _ => false)

/-- C10: an absent body behaves exactly like the empty-string body
(`event.body || ""`); and with a non-empty secret a signature that is
the HMAC of the empty string passes verification, after which the
handler returns 400 `{"error":"Invalid JSON"}` because the empty string
is not valid JSON. -/
theorem c10_absent_body_as_empty (secret : String) (hL hU : Option String) (f : Nat → Bool) :
    awsHandler secret none hL hU f = awsHandler secret (some "") hL hU f ∧
    (secret ≠ "" →
      awsHandler secret none (some (hmacSha256Hex secret "")) none f =
        ⟨400, invalidJsonBody, []⟩) := by
  refine ⟨rfl, fun hs => ?_⟩
  have hne := hmacHex_ne_empty secret ""
  have hj : jsOrString (some (hmacSha256Hex secret "")) none =
      some (hmacSha256Hex secret "") := by
    simp [jsOrString, hne]
  have hsig : verifySignature secret "" (jsOrString (some (hmacSha256Hex secret "")) none) =
      true := by
    rw [hj]
    exact (verifySignature_true_iff secret "" (some (hmacSha256Hex secret ""))).mpr
      (Or.inr ⟨_, rfl, rfl⟩)
  have hp : membraneParse "" = none := rfl
  simp [awsHandler, hsig, hp]

theorem c10_absent_body_witness :
    awsHandler "s" none (some (hmacSha256Hex "s" "")) none (fun _ => false) =
      ⟨400, invalidJsonBody, []⟩ :=
  (c10_absent_body_as_empty "s" none none (fun _ => false)).2 (by decide)

/-- C1 (code bug in the Google Cloud variant): the wire body `{ }` is
valid JSON and is signed over its exact bytes, as the spec's contract
prescribes.  The AWS handler, which hashes the unparsed raw body,
accepts it (200).  The Google Cloud handler instead computes
`rawBody = JSON.stringify(req.body)` — a re-serialization of the
framework-parsed body, `{}`, which differs from the wire bytes — and
rejects the correctly signed request with 401, contradicting its own
comments ("Read the *raw* body (string) BEFORE parsing", "We MUST
compute HMAC over the *raw* request body string"). -/
theorem c1_gcloud_reserialization_bug :
    membraneParse "\x7b \x7d" = some (Json.obj []) ∧
    jsonStringify (Json.obj []) = "\x7b\x7d" ∧
    ("\x7b\x7d" == "\x7b \x7d") = false ∧
    awsHandler "k" (some "\x7b \x7d") (some (hmacSha256Hex "k" "\x7b \x7d")) none
      (fun _ => false) = ⟨200, okBody, []⟩ ∧
    membraneWebhookGC "k" "POST" (Json.obj []) (some (hmacSha256Hex "k" "\x7b \x7d")) none
      (fun _ => false) = ⟨401, invalidSignatureBody, []⟩ := by
  exact ⟨rfl, rfl, by decide, by decide, by decide⟩

end MembraneWebhook
